import Mathlib

/-!
Verification of the market-data normalization and trade-overlay pipeline of
the spx-front dashboard (src/App.jsx).  The definitions below are a shallow
embedding of the chart effect: candle normalization, the trade marker
aligner, the opening-range overlay decision and the crosshair legend.
Prices are embedded as rationals; JavaScript non-finite numbers (NaN and
the infinities) are embedded explicitly by the JsNum type, and absent or
null object fields by Option.
-/

/-- A JavaScript number: a finite rational, one of the two infinities, or
NaN.  Floating-point rounding of finite values is not modelled; the claims
under study only depend on exact decimal inputs. -/
inductive JsNum where
  | fin : Rat → JsNum
  | posInf : JsNum
  | negInf : JsNum
  | nan : JsNum
deriving DecidableEq, Repr

/-- Embeds an optional field read: an absent (undefined/null) numeric field
used in arithmetic behaves as NaN. -/
def jsOfOpt : Option Rat → JsNum
  | some q => .fin q
  | none => .nan

/-- JavaScript subtraction, including the non-finite cases. -/
def jsSub : JsNum → JsNum → JsNum
  | .fin a, .fin b => .fin (a - b)
  | .posInf, .fin _ => .posInf
  | .fin _, .posInf => .negInf
  | .negInf, .fin _ => .negInf
  | .fin _, .negInf => .posInf
  | .posInf, .negInf => .posInf
  | .negInf, .posInf => .negInf
  | _, _ => .nan

/-- JavaScript division.  Division of a nonzero finite value by (positive)
zero yields an infinity; 0/0 yields NaN.  The embedding identifies the
rational 0 with the JavaScript +0 (a -0 denominator cannot arise from the
pipeline under study). -/
def jsDiv : JsNum → JsNum → JsNum
  | .fin a, .fin b =>
      if b = 0 then (if a = 0 then .nan else if 0 < a then .posInf else .negInf)
      else .fin (a / b)
  | .posInf, .fin b => if 0 ≤ b then .posInf else .negInf
  | .negInf, .fin b => if 0 ≤ b then .negInf else .posInf
  | .fin _, .posInf => .fin 0
  | .fin _, .negInf => .fin 0
  | _, _ => .nan

/-- JavaScript multiplication. -/
def jsMul : JsNum → JsNum → JsNum
  | .fin a, .fin b => .fin (a * b)
  | .posInf, .fin b => if b = 0 then .nan else if 0 < b then .posInf else .negInf
  | .fin a, .posInf => if a = 0 then .nan else if 0 < a then .posInf else .negInf
  | .negInf, .fin b => if b = 0 then .nan else if 0 < b then .negInf else .posInf
  | .fin a, .negInf => if a = 0 then .nan else if 0 < a then .negInf else .posInf
  | .posInf, .posInf => .posInf
  | .negInf, .negInf => .posInf
  | .posInf, .negInf => .negInf
  | .negInf, .posInf => .negInf
  | _, _ => .nan

/-- The signed integer `round(|q| * 10^dec)` with the sign of `q`, the value
whose digits `Number.prototype.toFixed(dec)` prints: the sign is taken
first and the magnitude is rounded to nearest with ties away from zero. -/
def fixedScaled (dec : Nat) (q : Rat) : Int :=
  if q < 0 then -(round (|q| * (10 : Rat) ^ dec)) else round (q * (10 : Rat) ^ dec)

/-- Embedding of `Number.prototype.toFixed` on a finite value. -/
def toFixed (dec : Nat) (q : Rat) : String :=
  let n : Nat := (round (|q| * (10 : Rat) ^ dec)).toNat
  let ip := n / 10 ^ dec
  let fp := n % 10 ^ dec
  let fpStr := toString fp
  let pad := String.mk (List.replicate (dec - fpStr.length) '0')
  (if q < 0 then "-" else "") ++ toString ip ++
    (if dec = 0 then "" else "." ++ pad ++ fpStr)

/-- `toFixed` on a general JavaScript number: NaN and the infinities print
their names. -/
def jsToFixed (dec : Nat) : JsNum → String
  | .nan => "NaN"
  | .posInf => "Infinity"
  | .negInf => "-Infinity"
  | .fin q => toFixed dec q

/-- The nullish-coalescing operator `a ?? b` on optional numeric fields. -/
def jsNullish (a b : Option Rat) : Option Rat :=
  match a with
  | some x => some x
  | none => b

/-- A catalog entry of the `INSTRUMENTS` table (App.jsx line 22). -/
structure Instrument where
  sym : String
  label : String
  source : String
  decimals : Nat
deriving DecidableEq, Repr

/-- The first catalog entry, `INSTRUMENTS[0]`, used as the fallback of
`currentInstrument`. -/
def instrumentsHead : Instrument :=
  { sym := "SPX", label := "S&P 500", source := "polygon", decimals := 1 }

/-- The static instrument catalog (App.jsx lines 22-35). -/
def INSTRUMENTS : List Instrument :=
  [ instrumentsHead,
    { sym := "NDX", label := "Nasdaq 100", source := "polygon", decimals := 1 },
    { sym := "EUR_USD", label := "EUR/USD", source := "oanda", decimals := 5 },
    { sym := "GBP_USD", label := "GBP/USD", source := "oanda", decimals := 5 },
    { sym := "USD_CHF", label := "USD/CHF", source := "oanda", decimals := 5 },
    { sym := "USD_JPY", label := "USD/JPY", source := "oanda", decimals := 3 },
    { sym := "EUR_GBP", label := "EUR/GBP", source := "oanda", decimals := 5 },
    { sym := "EUR_JPY", label := "EUR/JPY", source := "oanda", decimals := 3 },
    { sym := "GBP_JPY", label := "GBP/JPY", source := "oanda", decimals := 3 },
    { sym := "AUD_USD", label := "AUD/USD", source := "oanda", decimals := 5 },
    { sym := "NZD_USD", label := "NZD/USD", source := "oanda", decimals := 5 },
    { sym := "USD_CAD", label := "USD/CAD", source := "oanda", decimals := 5 } ]

/-- `INSTRUMENTS.find(i => i.sym === instrument) || INSTRUMENTS[0]`
(App.jsx line 219). -/
def currentInstrument (instrument : String) : Instrument :=
  (INSTRUMENTS.find? (fun i => i.sym == instrument)).getD instrumentsHead

/-- The `PRICE_DECIMALS` table and its lookup with default 5
(App.jsx lines 37-38). -/
def priceDec (instrument : String) : Nat :=
  if instrument = "SPX500_USD" then 1
  else if instrument = "NAS100_USD" then 1
  else if instrument = "US30_USD" then 1
  else if instrument = "USD_JPY" then 3
  else if instrument = "EUR_JPY" then 3
  else if instrument = "GBP_JPY" then 3
  else 5

/-- A raw candle record as delivered by either feed (App.jsx lines 341-351).
`timeParsed` embeds the result of the external `Date.parse(c.time)` call on
the record of the currency feed, in epoch milliseconds; `none` stands for a
missing `time` field or an unparseable string (NaN).  `s` is the epoch
millisecond key of the index feed. -/
structure RawCandle where
  sym : Option String
  s : Option Int
  timeParsed : Option Int
  o : Option Rat
  open_ : Option Rat
  h : Option Rat
  high : Option Rat
  l : Option Rat
  low : Option Rat
  c : Option Rat
  close : Option Rat
deriving DecidableEq, Repr

/-- A canonical candle bar.  `time` is `none` exactly when the JavaScript
computation produced NaN (currency-feed record with unparseable time). -/
structure Bar where
  time : Option Int
  open_ : Option Rat
  high : Option Rat
  low : Option Rat
  close : Option Rat
deriving DecidableEq, Repr

/-- The multi-symbol batch filter
`c => isOanda || !c.sym || c.sym === sym` (App.jsx line 342); an absent or
empty tag is falsy and passes. -/
def symOk (isOanda : Bool) (symTag : String) (cd : RawCandle) : Bool :=
  isOanda ||
    (match cd.sym with
     | none => true
     | some t => t == "" || t == symTag)

/-- The per-record mapping of App.jsx lines 343-351: time is
`Math.floor(Date.parse(c.time) / 1000)` for the currency feed and
`Math.floor((c.s || 0) / 1000)` for the index feed; each OHLC field goes
through the key alias chain `o ?? open` (and h/l/c alike). -/
def toBar (isOanda : Bool) (cd : RawCandle) : Bar :=
  { time := if isOanda then cd.timeParsed.map (fun ms => Int.fdiv ms 1000)
            else some (Int.fdiv (cd.s.getD 0) 1000)
  , open_ := jsNullish cd.o cd.open_
  , high := jsNullish cd.h cd.high
  , low := jsNullish cd.l cd.low
  , close := jsNullish cd.c cd.close }

/-- The drop predicate `d => d.open != null && d.time > 0`
(App.jsx line 352); a NaN time compares false. -/
def barOk (d : Bar) : Bool :=
  d.open_.isSome &&
    (match d.time with
     | some t => decide (0 < t)
     | none => false)

/-- The ascending-time comparison behind `.sort((a, b) => a.time - b.time)`
(App.jsx line 353).  The sort runs after the drop filter, so every time is
present; `getD 0` only resolves the Option. -/
def barLE (a b : Bar) : Bool :=
  a.time.getD 0 ≤ b.time.getD 0

/-- The candle normalization pipeline bound to `data` in App.jsx lines
341-353: symbol filter, key-alias mapping, drop of invalid records, stable
ascending-time sort. -/
def normalizeCandles (isOanda : Bool) (symTag : String)
    (batch : List RawCandle) : List Bar :=
  ((((batch.filter (symOk isOanda symTag)).map (toBar isOanda)).filter
    barOk).mergeSort barLE)

/-- Reading a canonical bar back as a raw record: a `Bar` object carries
keys `time`/`open`/`high`/`low`/`close` only, so `c.sym`, `c.s`, `c.o`,
`c.h`, `c.l`, `c.c` are all absent, and for the index-feed path `c.time`
(a number) is never consulted. -/
def barToRaw (b : Bar) : RawCandle :=
  { sym := none, s := none, timeParsed := none
  , o := none, open_ := b.open_
  , h := none, high := b.high
  , l := none, low := b.low
  , c := none, close := b.close }

/-- A trade execution row from the trade-history API (App.jsx usage in the
chart effect, lines 378-407).  `timestamp` is the raw ISO string (absent
fields give `undefined` to `startsWith` via optional chaining). -/
structure Trade where
  timestamp : Option String
  instrument : String
  direction : String
  entry : Option Rat
  fill_price : Option Rat
  sl : Option Rat
  tp : Option Rat
deriving DecidableEq, Repr

/-- A chart marker (the object literal of App.jsx lines 389-395). -/
structure Marker where
  time : Int
  position : String
  color : String
  shape : String
  text : String
deriving DecidableEq, Repr

/-- A price-line descriptor (the `createPriceLine` payloads of App.jsx
lines 373-374 and 401-406).  `price` keeps the Option so that
`Number(undefined)` (NaN) stays visible. -/
structure PriceLine where
  price : Option Rat
  color : String
  lineStyle : Nat
  title : String
deriving DecidableEq, Repr

/-- The two-stage day/instrument filter producing `dayTrades`
(App.jsx lines 379-381): keep executions whose ISO timestamp starts with
the selected day string, and, only when the selected instrument is
oanda-sourced, whose instrument equals the selected one. -/
def dayTradesOf (trades : List Trade) (candlesDay : String)
    (instrument : String) : List Trade :=
  ((trades.filter (fun t =>
      match t.timestamp with
      | some ts => ts.startsWith candlesDay
      | none => false)).filter (fun t =>
      if (currentInstrument instrument).source == "oanda"
      then t.instrument == instrument
      else true))

/-- One step of the `reduce` inside `snapToCandle` (App.jsx line 386):
keep the current candidate unless the new candle time is strictly closer
to the execution time. -/
def snapStep (ts : Int) (prev curr : Int) : Int :=
  if (curr - ts).natAbs < (prev - ts).natAbs then curr else prev

/-- `snapToCandle` (App.jsx lines 385-386): `reduce` over the candle
times, seeded with the first one.  A NaN execution time (`none`) makes
every comparison false, so the first candle time survives.  The empty
list never reaches this code (guarded at line 384); 0 stands for the
TypeError that `reduce` would throw. -/
def snapToCandle (candleTimes : List Int) (ts : Option Int) : Int :=
  match candleTimes, ts with
  | [], _ => 0
  | t :: rest, some s => rest.foldl (snapStep s) t
  | t :: _, none => t

/-- The marker price `t.fill_price || t.entry` (App.jsx line 394): a
missing or zero (falsy) fill price falls back to the entry price. -/
def fillOrEntry (t : Trade) : Option Rat :=
  match t.fill_price with
  | some p => if p = 0 then t.entry else some p
  | none => t.entry

/-- The marker built for one execution (App.jsx lines 389-395).  `parseMs`
embeds the external `new Date(s).getTime()` call in epoch milliseconds
(`none` for an invalid date, i.e. NaN). -/
def mkMarker (parseMs : String → Option Int) (candleTimes : List Int)
    (dec : Nat) (t : Trade) : Marker :=
  { time := snapToCandle candleTimes
      ((parseMs (t.timestamp.getD "")).map (fun ms => Int.fdiv ms 1000))
  , position := if t.direction == "LONG" then "belowBar" else "aboveBar"
  , color := if t.direction == "LONG" then "#26a69a" else "#ef5350"
  , shape := if t.direction == "LONG" then "arrowUp" else "arrowDown"
  , text := t.direction ++ " @ " ++ jsToFixed dec (jsOfOpt (fillOrEntry t)) }

/-- The ascending-time marker comparison behind
`.sort((a, b) => a.time - b.time)` (App.jsx line 396). -/
def markerLE (a b : Marker) : Bool :=
  a.time ≤ b.time

/-- The `markers` list handed to `createSeriesMarkers`
(App.jsx lines 388-398): one marker per day trade, sorted ascending by
snapped time. -/
def alignMarkers (parseMs : String → Option Int) (candleTimes : List Int)
    (dec : Nat) (dayTrades : List Trade) : List Marker :=
  (dayTrades.map (mkMarker parseMs candleTimes dec)).mergeSort markerLE

/-- The per-trade price lines of App.jsx lines 400-407: an Entry line when
`fill_price != null`, an SL line when `sl != null`, a TP line when
`tp != null`. -/
def tradePriceLines (t : Trade) : List PriceLine :=
  (match t.fill_price with
   | some p => [{ price := some p, color := "#2962ff", lineStyle := 0, title := "Entry" }]
   | none => []) ++
  (match t.sl with
   | some p => [{ price := some p, color := "#ef5350", lineStyle := 1, title := "SL" }]
   | none => []) ++
  (match t.tp with
   | some p => [{ price := some p, color := "#26a69a", lineStyle := 1, title := "TP" }]
   | none => [])

/-- The opening-range payload `{high, low, ...}` of the backend. -/
structure ORData where
  high : Option Rat
  low : Option Rat
deriving DecidableEq, Repr

/-- The opening-range state set by `loadMarketData` (App.jsx lines
225-239): for an oanda-sourced instrument the state is reset to null and
no fetch happens; for the index feed it is the fetch result (null on
error). -/
def fetchedOpeningRange (source : String) (fetched : Option ORData) :
    Option ORData :=
  if source == "oanda" then none else fetched

/-- The opening-range price lines (App.jsx lines 371-375): drawn exactly
when `openingRange.data` is non-null, at `Number(orData.high)` and
`Number(orData.low)`. -/
def orPriceLines (orData : Option ORData) : List PriceLine :=
  match orData with
  | none => []
  | some d =>
    [ { price := d.high, color := "#26a69a", lineStyle := 2, title := "OR High" },
      { price := d.low, color := "#ef5350", lineStyle := 2, title := "OR Low" } ]

/-- The bar resolved by `updateLegend` (App.jsx lines 413-418): the
hovered bar if any, else the last bar of the series. -/
def resolveBar (hovered : Option Bar) (data : List Bar) : Option Bar :=
  match hovered with
  | some b => some b
  | none => data.getLast?

/-- Strict-equality comparison `d.time === bar.time` on times, where a NaN
time (`none`) is equal to nothing, itself included. -/
def timeStrictEq (a b : Option Int) : Bool :=
  match a, b with
  | some x, some y => x == y
  | _, _ => false

/-- `bar.close >= bar.open` (App.jsx line 420); a comparison against an
absent field is false. -/
def jsGeOpt (a b : Option Rat) : Bool :=
  match a, b with
  | some x, some y => y ≤ x
  | _, _ => false

/-- The legend direction class, `up` when `isUp` and `down` otherwise
(App.jsx lines 420-421). -/
def legendCls (bar : Bar) : String :=
  if jsGeOpt bar.close bar.open_ then "up" else "down"

/-- The index computed at App.jsx line 435: `findIndex` on the resolved
bar time when a bar is hovered (-1 when not found), else the last index. -/
def legendIdx (data : List Bar) (hovered : Option Bar) (bar : Bar) : Int :=
  match hovered with
  | some _ =>
    match data.findIdx? (fun d => timeStrictEq d.time bar.time) with
    | some i => (i : Int)
    | none => -1
  | none => (data.length : Int) - 1

/-- `prevClose` (App.jsx line 436): the close of the preceding bar when
the index is positive, else the own open of the resolved bar. -/
def prevCloseAt (data : List Bar) (hovered : Option Bar) (bar : Bar) :
    Option Rat :=
  if 0 < legendIdx data hovered bar then
    match data.get? (legendIdx data hovered bar - 1).toNat with
    | some d => d.close
    | none => none
  else bar.open_

/-- Coercion of the printed percent string back to a number for the
`pct >= 0` test of App.jsx line 438: `Number(v.toFixed(2))` is the signed
scaled value over 100, with "-0.00" coercing to -0, which is >= 0. -/
def pctGeZero : JsNum → Bool
  | .nan => false
  | .posInf => true
  | .negInf => false
  | .fin q => decide (0 ≤ fixedScaled 2 q)

/-- The displayed change text `${sign}${pct}%` (App.jsx lines 437-439). -/
def pctDisplay (v : JsNum) : String :=
  (if pctGeZero v then "+" else "") ++ jsToFixed 2 v ++ "%"

/-- The percent-change text written by `updateLegend` (App.jsx lines
433-441): only produced when a bar resolves and the series has more than
one bar; the formula is `(bar.close - prevClose) / prevClose * 100` under
JavaScript number semantics. -/
def legendChangeText (data : List Bar) (hovered : Option Bar) :
    Option String :=
  match resolveBar hovered data with
  | none => none
  | some bar =>
    if 1 < data.length then
      some (pctDisplay (jsMul
        (jsDiv (jsSub (jsOfOpt bar.close) (jsOfOpt (prevCloseAt data hovered bar)))
          (jsOfOpt (prevCloseAt data hovered bar)))
        (.fin 100)))
    else none

/-- Modelled from the spec: the repository source exposes no symbol
mapping functions (only the `INSTRUMENTS` and `PRICE_DECIMALS` tables);
`toBrokerSymbol` is the UI-to-broker direction of the fixed bidirectional
mapping table described in section 4.1 of the spec (UI SPX to broker
SPX500_USD, UI NDX to broker NAS100_USD, FX pairs unchanged). -/
def toBrokerSymbol (uiSymbol : String) : String :=
  if uiSymbol = "SPX" then "SPX500_USD"
  else if uiSymbol = "NDX" then "NAS100_USD"
  else uiSymbol

/-- Modelled from the spec: the broker-to-UI direction of the same fixed
table; unmapped broker symbols pass through unchanged. -/
def fromBrokerSymbol (brokerSymbol : String) : String :=
  if brokerSymbol = "SPX500_USD" then "SPX"
  else if brokerSymbol = "NAS100_USD" then "NDX"
  else brokerSymbol

/-! Concrete fixtures used by the closed theorems below. -/

/-- An index-feed raw record resolving to the bar at 600 s. -/
def rawC2 : RawCandle :=
  { sym := some "I:SPX", s := some 600000, timeParsed := none
  , o := some 101, open_ := none, h := some 102, high := none
  , l := some 100, low := none, c := some 101, close := none }

/-- The canonical bar produced from `rawC2`. -/
def barC2 : Bar :=
  { time := some 600, open_ := some 101, high := some 102
  , low := some 100, close := some 101 }

/-- An index-feed raw record resolving to the bar at 300 s. -/
def rawC3 : RawCandle :=
  { sym := none, s := some 300000, timeParsed := none
  , o := some 100, open_ := none, h := some 101, high := none
  , l := some 99, low := none, c := some 100, close := none }

/-- A LONG execution whose timestamp parses to 601 s, 301 seconds away
from the single candle at 300 s. -/
def tradeC1 : Trade :=
  { timestamp := some "2026-01-05T00:10:01Z", instrument := "SPX500_USD"
  , direction := "LONG", entry := some 100.7, fill_price := some 100.7
  , sl := none, tp := none }

/-- A LONG execution with full price fields. -/
def tradeC7 : Trade :=
  { timestamp := some "2026-01-05T00:05:10Z", instrument := "SPX500_USD"
  , direction := "LONG", entry := some 100.7, fill_price := some 100.7
  , sl := some 99.5, tp := some 102 }

/-- A SHORT EUR_USD execution dated on the selected day. -/
def tradeC8 : Trade :=
  { timestamp := some "2026-01-05T15:00:00Z", instrument := "EUR_USD"
  , direction := "SHORT", entry := some 105, fill_price := none
  , sl := none, tp := none }

/-- A same-day EUR_USD execution for the oanda-side witness. -/
def tradeC8w : Trade :=
  { timestamp := some "2026-01-06T09:00:00Z", instrument := "EUR_USD"
  , direction := "LONG", entry := some 104, fill_price := some 104
  , sl := none, tp := none }

/-- An execution whose fill price is exactly zero. -/
def tradeC10 : Trade :=
  { timestamp := some "2026-01-05T12:00:00Z", instrument := "SPX500_USD"
  , direction := "LONG", entry := some 3, fill_price := some 0
  , sl := none, tp := none }

/-- First bar of the two-bar legend series: open 0, close 5. -/
def bar4a : Bar :=
  { time := some 100, open_ := some 0, high := some 6, low := some 0
  , close := some 5 }

/-- Second bar of the two-bar legend series: open 5, close 6. -/
def bar4b : Bar :=
  { time := some 400, open_ := some 5, high := some 7, low := some 4
  , close := some 6 }

/-- The two-bar legend series. -/
def data4 : List Bar := [bar4a, bar4b]

/-- A doji bar: close equals open. -/
def bar9 : Bar :=
  { time := some 0, open_ := some 3, high := some 3, low := some 3
  , close := some 3 }

/-- The EUR_USD catalog entry. -/
def instC6 : Instrument :=
  { sym := "EUR_USD", label := "EUR/USD", source := "oanda", decimals := 5 }

/-! Helper lemmas shared by the claim theorems. -/

theorem barLE_trans : ∀ (a b c : Bar), barLE a b → barLE b c → barLE a c := by
  intro a b c h1 h2
  simp only [barLE, decide_eq_true_eq] at h1 h2 ⊢
  omega

theorem barLE_total : ∀ (a b : Bar), barLE a b || barLE b a := by
  intro a b
  simp only [barLE, Bool.or_eq_true, decide_eq_true_eq]
  omega

theorem markerLE_trans : ∀ (a b c : Marker), markerLE a b → markerLE b c → markerLE a c := by
  intro a b c h1 h2
  simp only [markerLE, decide_eq_true_eq] at h1 h2 ⊢
  omega

theorem markerLE_total : ∀ (a b : Marker), markerLE a b || markerLE b a := by
  intro a b
  simp only [markerLE, Bool.or_eq_true, decide_eq_true_eq]
  omega

theorem barLE_iff (a b : Bar) : barLE a b = true ↔ a.time.getD 0 ≤ b.time.getD 0 := by
  simp [barLE]

theorem markerLE_iff (a b : Marker) : markerLE a b = true ↔ a.time ≤ b.time := by
  simp [markerLE]

theorem snapStep_le_acc (s : Int) (l : List Int) (acc : Int) :
    (l.foldl (snapStep s) acc - s).natAbs ≤ (acc - s).natAbs := by
  induction l generalizing acc with
  | nil => exact le_refl _
  | cons c l ih =>
    simp only [List.foldl_cons]
    refine le_trans (ih (snapStep s acc c)) ?_
    unfold snapStep
    split
    · omega
    · exact le_refl _

theorem snapStep_fold_mem (s : Int) (l : List Int) (acc : Int) :
    l.foldl (snapStep s) acc = acc ∨ l.foldl (snapStep s) acc ∈ l := by
  induction l generalizing acc with
  | nil => left; rfl
  | cons c l ih =>
    simp only [List.foldl_cons]
    rcases ih (snapStep s acc c) with h | h
    · rw [h]
      unfold snapStep
      split
      · right; exact List.mem_cons_self _ _
      · left; rfl
    · right; exact List.mem_cons_of_mem _ h

theorem snapStep_fold_min (s : Int) (l : List Int) (acc : Int) :
    ∀ u ∈ l, (l.foldl (snapStep s) acc - s).natAbs ≤ (u - s).natAbs := by
  induction l generalizing acc with
  | nil => intro u hu; cases hu
  | cons c l ih =>
    intro u hu
    simp only [List.foldl_cons]
    rcases List.mem_cons.mp hu with rfl | hu
    · refine le_trans (snapStep_le_acc s l (snapStep s acc u)) ?_
      unfold snapStep
      split
      · exact le_refl _
      · omega
    · exact ih (snapStep s acc c) u hu

theorem snapToCandle_mem (cts : List Int) (s : Int) (h : cts ≠ []) :
    snapToCandle cts (some s) ∈ cts := by
  match cts with
  | [] => exact absurd rfl h
  | t :: rest =>
    show rest.foldl (snapStep s) t ∈ t :: rest
    rcases snapStep_fold_mem s rest t with h1 | h1
    · rw [h1]; exact List.mem_cons_self _ _
    · exact List.mem_cons_of_mem _ h1

theorem snapToCandle_min (cts : List Int) (s : Int) :
    ∀ u ∈ cts, (snapToCandle cts (some s) - s).natAbs ≤ (u - s).natAbs := by
  match cts with
  | [] => intro u hu; cases hu
  | t :: rest =>
    intro u hu
    rcases List.mem_cons.mp hu with rfl | hu
    · exact snapStep_le_acc s rest u
    · exact snapStep_fold_min s rest t u hu

/-- C2: for every raw candle batch (either feed), the normalization output
is sorted non-decreasing by time, and every bar of the output has a
non-null open and a present, positive time (records whose resolved open is
absent or whose resolved time is not positive are dropped). -/
theorem C2_normalization_invariant (isOanda : Bool) (symTag : String)
    (batch : List RawCandle) :
    (normalizeCandles isOanda symTag batch).Pairwise
      (fun a b => a.time.getD 0 ≤ b.time.getD 0) ∧
    ∀ b ∈ normalizeCandles isOanda symTag batch,
      b.open_.isSome = true ∧ ∃ t : Int, b.time = some t ∧ 0 < t := by
  constructor
  · have h := List.sorted_mergeSort barLE_trans barLE_total
      (((batch.filter (symOk isOanda symTag)).map (toBar isOanda)).filter barOk)
    exact h.imp (fun hab => (barLE_iff _ _).mp hab)
  · intro b hb
    have hb2 : b ∈ ((batch.filter (symOk isOanda symTag)).map
        (toBar isOanda)).filter barOk := List.mem_mergeSort.mp hb
    have hok : barOk b = true := (List.mem_filter.mp hb2).2
    unfold barOk at hok
    rw [Bool.and_eq_true] at hok
    refine ⟨hok.1, ?_⟩
    rcases ht : b.time with _ | t
    · rw [ht] at hok
      exact absurd hok.2 (by simp)
    · rw [ht] at hok
      exact ⟨t, rfl, by simpa using hok.2⟩

/-- Witness for C2 at a concrete one-record index-feed batch. -/
theorem C2_witness :
    barC2.open_.isSome = true ∧ ∃ t : Int, barC2.time = some t ∧ 0 < t := by
  have he : normalizeCandles false "I:SPX" [rawC2] = [barC2] := by
    with_unfolding_all rfl
  refine (C2_normalization_invariant false "I:SPX" [rawC2]).2 barC2 ?_
  rw [he]
  exact List.mem_singleton.mpr rfl

/-- C3 fails on the code: renormalizing the canonical output of a concrete
index-feed batch does not return it (the canonical bars carry no `s` key,
so their recomputed time is 0 and they are all dropped). -/
theorem C3_counterexample :
    normalizeCandles false "I:SPX"
        ((normalizeCandles false "I:SPX" [rawC3]).map barToRaw) ≠
      normalizeCandles false "I:SPX" [rawC3] := by
  have h1 : normalizeCandles false "I:SPX"
      ((normalizeCandles false "I:SPX" [rawC3]).map barToRaw) = [] := by
    with_unfolding_all rfl
  have h2 : normalizeCandles false "I:SPX" [rawC3] =
      [{ time := some 300, open_ := some 100, high := some 101
       , low := some 99, close := some 100 }] := by
    with_unfolding_all rfl
  rw [h1, h2]
  simp

/-- C3 (amended): normalization is not idempotent.  Feeding an
already-canonical sequence back through the index-feed normalization
always yields the empty sequence, because the time is re-derived from the
absent raw `s` key; what does hold is that the output is a fixpoint of the
final drop-and-sort stage. -/
theorem C3_renormalization (isOanda : Bool) (tag tag2 : String)
    (batch : List RawCandle) :
    normalizeCandles false tag2
        ((normalizeCandles isOanda tag batch).map barToRaw) = [] ∧
    ((normalizeCandles isOanda tag batch).filter barOk).mergeSort barLE =
      normalizeCandles isOanda tag batch := by
  constructor
  · have hkey : ∀ l : List Bar,
        ((((l.map barToRaw).filter (symOk false tag2)).map
          (toBar false)).filter barOk) = [] := by
      intro l
      induction l with
      | nil => rfl
      | cons b l ih =>
        have hsym : symOk false tag2 (barToRaw b) = true := rfl
        have hok : barOk (toBar false (barToRaw b)) = false := by
          simp [barOk, toBar, barToRaw]
        simp only [List.map_cons, List.filter_cons, hsym, if_true, hok]
        simpa using ih
    unfold normalizeCandles
    rw [hkey]
    exact List.mergeSort_nil
  · have hfil : (normalizeCandles isOanda tag batch).filter barOk =
        normalizeCandles isOanda tag batch := by
      apply List.filter_eq_self.mpr
      intro b hb
      exact (List.mem_filter.mp (List.mem_mergeSort.mp hb)).2
    rw [hfil]
    exact List.mergeSort_of_sorted
      (List.sorted_mergeSort barLE_trans barLE_total _)

/-- C1 fails on the code: `snapToCandle` enforces no tolerance.  With a
single candle at 300 s and an execution at 601 s the minimum distance is
301 s, beyond the claimed 300 s bound, yet a marker is still emitted on
the bar at 300 s instead of the execution being discarded. -/
theorem C1_counterexample :
    ((300 : Int) - 601).natAbs = 301 ∧
    alignMarkers (fun _ => some 601000) [300] 1 [tradeC1] =
      [{ time := 300, position := "belowBar", color := "#26a69a"
       , shape := "arrowUp", text := "LONG @ 100.7" }] := by
  constructor
  · decide
  · with_unfolding_all rfl

/-- C1 (amended): every execution is snapped to the candle bar whose time
has minimum absolute distance to the execution time, and no distance
tolerance is enforced: whenever the candle list is non-empty the aligner
emits exactly one marker per execution, however far the nearest bar is
(an execution exactly 300 s away and one 301 s away are both accepted). -/
theorem C1_snap_no_tolerance (cts : List Int) (s : Int) (h : cts ≠ []) :
    snapToCandle cts (some s) ∈ cts ∧
    (∀ u ∈ cts, (snapToCandle cts (some s) - s).natAbs ≤ (u - s).natAbs) ∧
    ∀ (parseMs : String → Option Int) (dec : Nat) (trades : List Trade),
      (alignMarkers parseMs cts dec trades).length = trades.length := by
  refine ⟨snapToCandle_mem cts s h, snapToCandle_min cts s, ?_⟩
  intro parseMs dec trades
  unfold alignMarkers
  rw [List.length_mergeSort, List.length_map]

/-- Witness for C1 at a two-candle series and a tied execution time. -/
theorem C1_witness :
    snapToCandle [300, 600] (some 450) ∈ [(300 : Int), 600] ∧
    (alignMarkers (fun _ => some 450000) [300, 600] 1 [tradeC1]).length = 1 := by
  have h := C1_snap_no_tolerance [300, 600] 450 (by simp)
  exact ⟨h.1, h.2.2 (fun _ => some 450000) 1 [tradeC1]⟩

/-- C7: each accepted execution yields a marker below the bar with an up
arrow and the long color for LONG and above the bar with a down arrow and
the short color for SHORT, labeled with the direction and the resolved
fill price formatted at the instrument decimal precision, and the full
marker list is sorted ascending by time. -/
theorem C7_marker_shape_and_sorted (parseMs : String → Option Int)
    (cts : List Int) (dec : Nat) (trades : List Trade) :
    (alignMarkers parseMs cts dec trades).Pairwise
      (fun a b => a.time ≤ b.time) ∧
    ∀ t ∈ trades,
      mkMarker parseMs cts dec t ∈ alignMarkers parseMs cts dec trades ∧
      (t.direction = "LONG" →
        (mkMarker parseMs cts dec t).position = "belowBar" ∧
        (mkMarker parseMs cts dec t).shape = "arrowUp" ∧
        (mkMarker parseMs cts dec t).color = "#26a69a") ∧
      (t.direction = "SHORT" →
        (mkMarker parseMs cts dec t).position = "aboveBar" ∧
        (mkMarker parseMs cts dec t).shape = "arrowDown" ∧
        (mkMarker parseMs cts dec t).color = "#ef5350") ∧
      (mkMarker parseMs cts dec t).text =
        t.direction ++ " @ " ++ jsToFixed dec (jsOfOpt (fillOrEntry t)) := by
  constructor
  · have h := List.sorted_mergeSort markerLE_trans markerLE_total
      (trades.map (mkMarker parseMs cts dec))
    exact h.imp (fun hab => (markerLE_iff _ _).mp hab)
  · intro t ht
    refine ⟨List.mem_mergeSort.mpr (List.mem_map_of_mem _ ht), ?_, ?_, rfl⟩
    · intro hdir
      simp [mkMarker, hdir]
    · intro hdir
      simp [mkMarker, hdir]

/-- Witness for C7 at a concrete LONG execution on a two-candle series. -/
theorem C7_witness :
    (mkMarker (fun _ => some 310000) [0, 300] 1 tradeC7).position = "belowBar" ∧
    (mkMarker (fun _ => some 310000) [0, 300] 1 tradeC7).shape = "arrowUp" ∧
    mkMarker (fun _ => some 310000) [0, 300] 1 tradeC7 ∈
      alignMarkers (fun _ => some 310000) [0, 300] 1 [tradeC7] := by
  have h := (C7_marker_shape_and_sorted (fun _ => some 310000) [0, 300] 1
    [tradeC7]).2 tradeC7 (List.mem_singleton.mpr rfl)
  exact ⟨(h.2.1 rfl).1, (h.2.1 rfl).2.1, h.1⟩

/-- C8 fails on the code: when the selected instrument comes from the
index feed (here SPX), the instrument filter is skipped, so a same-day
execution on a different instrument (EUR_USD) survives the filter and
produces a marker. -/
theorem C8_counterexample :
    tradeC8.instrument ≠ "SPX" ∧
    dayTradesOf [tradeC8] "2026-01-05" "SPX" = [tradeC8] ∧
    (alignMarkers (fun _ => some 1736089200000) [1736085600] 1
        (dayTradesOf [tradeC8] "2026-01-05" "SPX")).length = 1 := by
  refine ⟨by simp [tradeC8], ?_, ?_⟩
  · with_unfolding_all rfl
  · with_unfolding_all rfl

/-- C8 (amended): the overlaid executions are exactly those of the
selected trading day, and the instrument filter applies only when the
selected instrument is oanda-sourced; for an index-feed instrument every
same-day execution passes regardless of its instrument. -/
theorem C8_day_trades_membership (trades : List Trade) (day inst : String)
    (t : Trade) :
    t ∈ dayTradesOf trades day inst ↔
      t ∈ trades ∧
      (∃ ts, t.timestamp = some ts ∧ ts.startsWith day = true) ∧
      ((currentInstrument inst).source = "oanda" → t.instrument = inst) := by
  unfold dayTradesOf
  rw [List.mem_filter, List.mem_filter]
  constructor
  · rintro ⟨⟨ht, hday⟩, hinst⟩
    refine ⟨ht, ?_, ?_⟩
    · rcases hts : t.timestamp with _ | ts
      · rw [hts] at hday
        exact absurd hday (by simp)
      · rw [hts] at hday
        exact ⟨ts, rfl, hday⟩
    · intro hsrc
      simp only [hsrc, beq_self_eq_true, if_true, beq_iff_eq] at hinst
      exact hinst
  · rintro ⟨ht, ⟨ts, hts, hday⟩, hinst⟩
    refine ⟨⟨ht, ?_⟩, ?_⟩
    · rw [hts]
      exact hday
    · by_cases hsrc : (currentInstrument inst).source = "oanda"
      · simp only [hsrc, beq_self_eq_true, if_true, beq_iff_eq]
        exact hinst hsrc
      · have : ((currentInstrument inst).source == "oanda") = false := by
          simpa using hsrc
        simp only [this, Bool.false_eq_true, if_false]
  
/-- Witness for C8 at an oanda-sourced selection, where both filters
apply. -/
theorem C8_witness :
    tradeC8w ∈ dayTradesOf [tradeC8w] "2026-01-06" "EUR_USD" := by
  refine (C8_day_trades_membership [tradeC8w] "2026-01-06" "EUR_USD"
    tradeC8w).mpr ⟨List.mem_singleton.mpr rfl, ⟨"2026-01-06T09:00:00Z", rfl, ?_⟩, fun _ => rfl⟩
  with_unfolding_all rfl

/-- C4 fails on the code: hovering the first bar of a two-bar series whose
open is 0 resolves prevClose to 0, and the displayed change is
"+Infinity%", not a 0% change. -/
theorem C4_counterexample :
    prevCloseAt data4 (some bar4a) bar4a = some 0 ∧
    legendChangeText data4 (some bar4a) = some "+Infinity%" ∧
    "+Infinity%" ≠ "+0.00%" := by
  refine ⟨?_, ?_, by simp⟩
  · with_unfolding_all rfl
  · with_unfolding_all rfl

/-- C4 (amended): for every resolved legend bar of a multi-bar series the
displayed percent change is (close - prevClose) / prevClose * 100 rounded
to two decimals, where prevClose is the close of the bar preceding the
resolved index, or the own open of a first bar; a zero prevClose does not
crash the computation but displays a non-finite value (Infinity for a
positive close), not 0%. -/
theorem C4_percent_change (data : List Bar) (hovered : Option Bar)
    (bar : Bar) (hres : resolveBar hovered data = some bar)
    (hlen : 1 < data.length) :
    (∀ cc p, bar.close = some cc → prevCloseAt data hovered bar = some p →
      p ≠ 0 →
      legendChangeText data hovered =
        some ((if 0 ≤ fixedScaled 2 ((cc - p) / p * 100) then "+" else "") ++
          toFixed 2 ((cc - p) / p * 100) ++ "%")) ∧
    (∀ cc, bar.close = some cc → prevCloseAt data hovered bar = some 0 →
      0 < cc →
      legendChangeText data hovered = some "+Infinity%") := by
  have hbase : legendChangeText data hovered =
      some (pctDisplay (jsMul (jsDiv (jsSub (jsOfOpt bar.close)
        (jsOfOpt (prevCloseAt data hovered bar)))
        (jsOfOpt (prevCloseAt data hovered bar))) (.fin 100))) := by
    unfold legendChangeText
    rw [hres]
    simp [hlen]
  constructor
  · intro cc p hc hp hp0
    rw [hbase, hc, hp]
    simp [jsOfOpt, jsSub, jsDiv, jsMul, hp0, pctDisplay, pctGeZero, jsToFixed]
  · intro cc hc hp hcpos
    rw [hbase, hc, hp]
    simp only [jsOfOpt, jsSub, jsDiv, jsMul, sub_zero, hcpos.ne', if_false,
      hcpos, if_true, if_neg hcpos.ne']
    norm_num [pctDisplay, pctGeZero, jsToFixed]
    rfl

/-- Witness for C4: the default (last) bar of the two-bar series shows a
+20.00% change against the previous close of 5. -/
theorem C4_witness : legendChangeText data4 none = some "+20.00%" := by
  have h := (C4_percent_change data4 none bar4b (by with_unfolding_all rfl)
    (by decide)).1 6 5 rfl (by with_unfolding_all rfl) (by simp)
  rw [h]
  with_unfolding_all rfl

/-- C9: for every resolved legend bar with present open and close, the
legend direction class is "up" exactly when close >= open and "down"
exactly when close < open; a bar whose close equals its open reports
"up". -/
theorem C9_legend_direction (data : List Bar) (hovered : Option Bar)
    (bar : Bar) (hres : resolveBar hovered data = some bar) (cc oo : Rat)
    (hc : bar.close = some cc) (ho : bar.open_ = some oo) :
    (legendCls bar = "up" ↔ oo ≤ cc) ∧
    (legendCls bar = "down" ↔ cc < oo) ∧
    (cc = oo → legendCls bar = "up") := by
  have hcls : legendCls bar = if oo ≤ cc then "up" else "down" := by
    unfold legendCls jsGeOpt
    rw [hc, ho]
    by_cases h : oo ≤ cc <;> simp [h]
  rw [hcls]
  by_cases h : oo ≤ cc
  · rw [if_pos h]
    refine ⟨⟨fun _ => h, fun _ => rfl⟩, ⟨fun hup => absurd hup (by simp),
      fun hlt => absurd h (not_le.mpr hlt)⟩, fun _ => rfl⟩
  · rw [if_neg h]
    refine ⟨⟨fun hdn => absurd hdn (by simp), fun hle => absurd hle h⟩,
      ⟨fun _ => not_le.mp h, fun _ => rfl⟩,
      fun heq => absurd (le_of_eq heq.symm) h⟩

/-- Witness for C9 at a doji bar: close equals open and the class is
"up". -/
theorem C9_witness : legendCls bar9 = "up" :=
  (C9_legend_direction [bar9] none bar9 rfl 3 3 rfl rfl).2.2 rfl

/-- C5: the UI/broker symbol mapping round-trips on every catalog entry.
The mapping functions are modelled from the spec (the repository source
only carries the catalog tables), with SPX and NDX mapped to their broker
names and all other symbols passing through unchanged. -/
theorem C5_symbol_roundtrip (i : Instrument) (hi : i ∈ INSTRUMENTS) :
    fromBrokerSymbol (toBrokerSymbol i.sym) = i.sym := by
  fin_cases hi <;> with_unfolding_all rfl

/-- Witness for C5 at the first catalog entry. -/
theorem C5_witness : fromBrokerSymbol (toBrokerSymbol instrumentsHead.sym) =
    instrumentsHead.sym :=
  C5_symbol_roundtrip instrumentsHead (List.mem_cons_self _ _)

/-- C6: for every oanda-sourced catalog instrument the opening-range
overlay draws no reference line regardless of any fetched payload, while
for an index-feed instrument with data present the two reference lines
expose the high and low levels. -/
theorem C6_opening_range_overlay (i : Instrument) (hi : i ∈ INSTRUMENTS) :
    (i.source = "oanda" → ∀ fetched,
      orPriceLines (fetchedOpeningRange i.source fetched) = []) ∧
    (i.source = "polygon" → ∀ d : ORData,
      (orPriceLines (fetchedOpeningRange i.source (some d))).map
          (fun pl => (pl.title, pl.price)) =
        [("OR High", d.high), ("OR Low", d.low)]) := by
  constructor
  · intro hs fetched
    unfold fetchedOpeningRange
    rw [hs]
    simp [orPriceLines]
  · intro hs d
    unfold fetchedOpeningRange
    rw [hs]
    simp [orPriceLines]

/-- Witness for C6: EUR_USD with a supplied opening-range payload still
yields no reference line. -/
theorem C6_witness :
    orPriceLines (fetchedOpeningRange instC6.source
      (some { high := some 2, low := some 1 })) = [] :=
  (C6_opening_range_overlay instC6
    (by simp [INSTRUMENTS, instC6])).1 rfl (some { high := some 2, low := some 1 })

/-- C10: the marker label price is the fill price when present and
non-zero; a fill price of exactly 0 (falsy) and an absent fill price both
fall back to the entry price; the Entry price line, by contrast, is drawn
exactly when the fill price is non-null, so an execution carrying only an
entry price gets a labeled marker but no Entry line. -/
theorem C10_fill_fallback (parseMs : String → Option Int) (cts : List Int)
    (dec : Nat) (t : Trade) :
    (∀ p, t.fill_price = some p → p ≠ 0 →
      (mkMarker parseMs cts dec t).text =
        t.direction ++ " @ " ++ jsToFixed dec (jsOfOpt (some p))) ∧
    (t.fill_price = some 0 →
      (mkMarker parseMs cts dec t).text =
        t.direction ++ " @ " ++ jsToFixed dec (jsOfOpt t.entry)) ∧
    (t.fill_price = none →
      (mkMarker parseMs cts dec t).text =
        t.direction ++ " @ " ++ jsToFixed dec (jsOfOpt t.entry)) ∧
    ((∃ pl ∈ tradePriceLines t, pl.title = "Entry") ↔
      t.fill_price.isSome = true) := by
  refine ⟨?_, ?_, ?_, ?_⟩
  · intro p hp hp0
    simp [mkMarker, fillOrEntry, hp, hp0]
  · intro hp
    simp [mkMarker, fillOrEntry, hp]
  · intro hp
    simp [mkMarker, fillOrEntry, hp]
  · rcases hp : t.fill_price with _ | p
    · simp only [Option.isSome_none, Bool.false_eq_true, iff_false]
      rintro ⟨pl, hpl, htitle⟩
      rw [tradePriceLines, hp] at hpl
      simp only [List.nil_append] at hpl
      rcases List.mem_append.mp hpl with hpl2 | hpl2
      · rcases hsl : t.sl with _ | ps <;> rw [hsl] at hpl2 <;>
          simp at hpl2 <;> subst hpl2 <;> simp at htitle
      · rcases htp : t.tp with _ | pt <;> rw [htp] at hpl2 <;>
          simp at hpl2 <;> subst hpl2 <;> simp at htitle
    · simp only [Option.isSome_some, iff_true]
      refine ⟨(⟨some p, "#2962ff", 0, "Entry"⟩ : PriceLine), ?_, rfl⟩
      rw [tradePriceLines, hp]
      exact List.mem_append_left _
        (List.mem_append_left _ (List.mem_singleton.mpr rfl))

/-- Witness for C10: a zero fill price labels the marker with the entry
price while still drawing an Entry line. -/
theorem C10_witness :
    (mkMarker (fun _ => some 0) [0] 1 tradeC10).text =
      tradeC10.direction ++ " @ " ++ jsToFixed 1 (jsOfOpt tradeC10.entry) ∧
    (∃ pl ∈ tradePriceLines tradeC10, pl.title = "Entry") := by
  have h := C10_fill_fallback (fun _ => some 0) [0] 1 tradeC10
  exact ⟨h.2.1 rfl, h.2.2.2.mpr rfl⟩
